import Mathlib

/-!
# Type representation (`mlir/IR/Types.h`) and call-graph updater
# (`llvm/lib/Transforms/Utils/CallGraphUpdater.cpp`)

A shallow embedding of the two source files and the properties established for
them.  Pointers are modelled by addresses (natural numbers), bit-fields by
natural numbers reduced modulo `2 ^ width`, and `assert` by a failing result.
-/

namespace mlir

/-! ## `enum class TypeKind` -/

/-- Integer identifier for all the concrete type kinds. -/
inductive TypeKind where
  | I1
  | I8
  | I16
  | I32
  | I64
  | Int
  | BF16
  | F16
  | F32
  | F64
  | Function
  | Vector
  deriving DecidableEq, Repr

namespace TypeKind

/-- The integer value of each enumerator: they are numbered from zero in
declaration order, `LAST_PRIMITIVE_TYPE = F64` does not consume a value. -/
def toNat : TypeKind → Nat
  | I1 => 0
  | I8 => 1
  | I16 => 2
  | I32 => 3
  | I64 => 4
  | Int => 5
  | BF16 => 6
  | F16 => 7
  | F32 => 8
  | F64 => 9
  | Function => 10
  | Vector => 11

/-- The enumerator `LAST_PRIMITIVE_TYPE = F64`. -/
def LAST_PRIMITIVE_TYPE : TypeKind := F64

/-- The comparison `a <= b` of two enumerators compares their values. -/
def le (a b : TypeKind) : Bool := decide (a.toNat ≤ b.toNat)

/-- The comparison `a < b` of two enumerators compares their values. -/
def lt (a b : TypeKind) : Bool := decide (a.toNat < b.toNat)

/-- The ten primitive kinds named by the enumeration before the derived ones. -/
def primitiveKinds : List TypeKind :=
  [I1, I8, I16, I32, I64, Int, BF16, F16, F32, F64]

end TypeKind

/-! ## `class Type` -/

/-- Address of an `MLIRContext` (the class is only forward declared). -/
structure MLIRContext where
  addr : Nat
  deriving DecidableEq, Repr

/-- Width of the bit-field `TypeKind kind : 8`. -/
def kindBits : Nat := 8

/-- Width of the bit-field `unsigned subclassData : 24`. -/
def subclassDataBits : Nat := 24

/-- The data members of `class Type`.  `subclassData` is the content of the
24-bit bit-field. -/
structure Type_ where
  context : MLIRContext
  kind : TypeKind
  subclassData : Nat
  deriving DecidableEq, Repr

namespace Type_

/-- Member function `TypeKind getKind() const`. -/
def getKind (t : Type_) : TypeKind := t.kind

/-- Member function `bool is(TypeKind k) const`. -/
def is (t : Type_) (k : TypeKind) : Bool := t.kind == k

/-- Member function `MLIRContext *getContext() const`. -/
def getContext (t : Type_) : MLIRContext := t.context

/-- Member function `unsigned getSubclassData() const`. -/
def getSubclassData (t : Type_) : Nat := t.subclassData

/-- Constructor `Type(TypeKind kind, MLIRContext *context)`:
`context(context), kind(kind), subclassData(0)`. -/
def new (kind : TypeKind) (context : MLIRContext) : Type_ :=
  { context := context, kind := kind, subclassData := 0 % 2 ^ subclassDataBits }

/-- The message of the assertion in `setSubclassData`. -/
def tooLarge : String := "Subclass data too large for field"

/-- Member function `void setSubclassData(unsigned val)`: the assignment to the
24-bit bit-field keeps the low 24 bits of `val`, then the assertion compares
the field read back with `val`; a failed assertion is the `error` result. -/
def setSubclassData (t : Type_) (val : Nat) : Except String Type_ :=
  let t1 : Type_ := { t with subclassData := val % 2 ^ subclassDataBits }
  if t1.getSubclassData = val then .ok t1 else .error tooLarge

/-- Constructor `Type(TypeKind kind, MLIRContext *context, unsigned subClassData)`:
delegates to the two-argument constructor, then calls `setSubclassData`. -/
def newWithData (kind : TypeKind) (context : MLIRContext) (subClassData : Nat) :
    Except String Type_ :=
  (Type_.new kind context).setSubclassData subClassData

end Type_

/-! ## `ArrayRef` -/

/-- The view `ArrayRef<T>(data + offset, length)` of a buffer `data`: `length`
elements starting at index `offset`. -/
def arrayRef {α : Type} (data : List α) (offset length : Nat) : List α :=
  (data.drop offset).take length

/-! ## `class PrimitiveType` -/

namespace PrimitiveType

/-- Static member `classof`: `T->getKind() <= TypeKind::LAST_PRIMITIVE_TYPE`. -/
def classof (T : Type_) : Bool := T.getKind.le TypeKind.LAST_PRIMITIVE_TYPE

end PrimitiveType

/-! ## `class FunctionType` -/

/-- A `Type *`: the address of a type object. -/
structure TypePtr where
  addr : Nat
  deriving DecidableEq, Repr

/-- A `PrimitiveType *`: the address of a primitive type object. -/
structure PrimitiveTypePtr where
  addr : Nat
  deriving DecidableEq, Repr

/-- The data members of `class FunctionType : public Type`; `inputsAndResults`
is the buffer the member pointer refers to. -/
structure FunctionType where
  toType : Type_
  numResults : Nat
  inputsAndResults : List TypePtr
  deriving DecidableEq, Repr

namespace FunctionType

/-- Static member `classof`: `T->getKind() == TypeKind::Function`. -/
def classof (T : Type_) : Bool := T.getKind == TypeKind.Function

/-- Member function `getInputs`:
`ArrayRef<Type*>(inputsAndResults, getSubclassData())`. -/
def getInputs (f : FunctionType) : List TypePtr :=
  arrayRef f.inputsAndResults 0 f.toType.getSubclassData

/-- Member function `getResults`:
`ArrayRef<Type*>(inputsAndResults+getSubclassData(), numResults)`. -/
def getResults (f : FunctionType) : List TypePtr :=
  arrayRef f.inputsAndResults f.toType.getSubclassData f.numResults

end FunctionType

/-! ## `class VectorType` -/

/-- The data members of `class VectorType : public Type`; `shapeElements` is
the buffer the member pointer refers to. -/
structure VectorType where
  toType : Type_
  shapeElements : List Nat
  elementType : PrimitiveTypePtr
  deriving DecidableEq, Repr

namespace VectorType

/-- Member function `getShape`:
`ArrayRef<unsigned>(shapeElements, getSubclassData())`. -/
def getShape (v : VectorType) : List Nat :=
  arrayRef v.shapeElements 0 v.toType.getSubclassData

/-- Member function `PrimitiveType *getElementType() const`. -/
def getElementType (v : VectorType) : PrimitiveTypePtr := v.elementType

/-- Static member `classof`: `T->getKind() == TypeKind::Vector`. -/
def classof (T : Type_) : Bool := T.getKind == TypeKind.Vector

end VectorType

/-! ## The uniquing store behind the factories -/

/-- One uniquing table: structural keys with the handle registered for each. -/
abbrev Table (κ : Type) := List (κ × TypePtr)

/-- Probe a uniquing table for a structural key. -/
def Table.probe {κ : Type} [DecidableEq κ] : Table κ → κ → Option TypePtr
  | [], _ => none
  | (k, h) :: rest, key => if k = key then some h else Table.probe rest key

/-- Modelled from the spec: the owning store (`MLIRContext` is only forward
declared in Types.h and its definition is absent).  It holds one uniquing table
per variant family and the arena, of which the next free address is kept. -/
structure Store where
  primitives : Table TypeKind
  functions : Table (List TypePtr × List TypePtr)
  vectors : Table (List Nat × TypePtr)
  next : Nat
  deriving DecidableEq, Repr

/-- The largest count the bounded count field holds, `2 ^ 24 - 1`. -/
def maxCount : Nat := 2 ^ subclassDataBits - 1

/-- Modelled from the spec: the body of `PrimitiveType::get(kind, context)`,
which Types.h only declares.  Probe the table of the family; on a hit return
the existing handle, on a miss allocate, register and return a new one. -/
def PrimitiveType.get (kind : TypeKind) (S : Store) : Option (TypePtr × Store) :=
  match S.primitives.probe kind with
  | some h => some (h, S)
  | none =>
    let h : TypePtr := ⟨S.next⟩
    some (h, { S with primitives := (kind, h) :: S.primitives, next := S.next + 1 })

/-- Modelled from the spec: the body of `FunctionType::get(inputs, results,
context)`, which Types.h only declares.  An input list longer than the 24-bit
count bound is a contract violation (`none`); otherwise probe the table with
the ordered inputs followed by the ordered results, return the existing handle
on a hit, allocate, register and return a new one on a miss. -/
def FunctionType.get (inputs results : List TypePtr) (S : Store) :
    Option (TypePtr × Store) :=
  if maxCount < inputs.length then none
  else
    match S.functions.probe (inputs, results) with
    | some h => some (h, S)
    | none =>
      let h : TypePtr := ⟨S.next⟩
      some (h, { S with functions := ((inputs, results), h) :: S.functions,
                        next := S.next + 1 })

/-- Modelled from the spec: the body of `VectorType::get(shape, elementType)`,
which Types.h only declares.  A rank above the 24-bit count bound is a contract
violation (`none`); otherwise probe the table with the ordered shape and the
element handle, return the existing handle on a hit, allocate, register and
return a new one on a miss. -/
def VectorType.get (shape : List Nat) (elementType : TypePtr) (S : Store) :
    Option (TypePtr × Store) :=
  if maxCount < shape.length then none
  else
    match S.vectors.probe (shape, elementType) with
    | some h => some (h, S)
    | none =>
      let h : TypePtr := ⟨S.next⟩
      some (h, { S with vectors := ((shape, elementType), h) :: S.vectors,
                        next := S.next + 1 })

/-- A structural descriptor handed to one of the three factories. -/
inductive Descriptor where
  | primitive (kind : TypeKind)
  | function (inputs results : List TypePtr)
  | vector (shape : List Nat) (elementType : TypePtr)
  deriving DecidableEq, Repr

/-- The factory call for a descriptor. -/
def Descriptor.get : Descriptor → Store → Option (TypePtr × Store)
  | .primitive kind, S => PrimitiveType.get kind S
  | .function inputs results, S => FunctionType.get inputs results S
  | .vector shape elementType, S => VectorType.get shape elementType S

/-- A sequence of factory calls made one after the other on a store; the
result is the store they leave, when none of them is a contract violation. -/
def Store.getAll : Store → List Descriptor → Option Store
  | S, [] => some S
  | S, d :: ds =>
    match d.get S with
    | some (_, S1) => Store.getAll S1 ds
    | none => none

/-- The handle registered in a store for a descriptor, if any. -/
def Store.registered (S : Store) : Descriptor → Option TypePtr
  | .primitive kind => S.primitives.probe kind
  | .function inputs results => S.functions.probe (inputs, results)
  | .vector shape elementType => S.vectors.probe (shape, elementType)

/-- Whether a descriptor respects the 24-bit count bound. -/
def Descriptor.inBound : Descriptor → Bool
  | .primitive _ => true
  | .function inputs _ => decide (inputs.length ≤ maxCount)
  | .vector shape _ => decide (shape.length ≤ maxCount)

/-! ## The objects behind the handles of a store -/

/-- Conversion of a `PrimitiveType *` to its base `Type *`: the address is kept. -/
def PrimitiveTypePtr.toType (p : PrimitiveTypePtr) : TypePtr := ⟨p.addr⟩

/-- Modelled from the spec: the private constructor
`VectorType(ArrayRef<unsigned> shape, PrimitiveType *elementType, MLIRContext
*context)`, which Types.h only declares.  The header is tagged `Vector` and
holds the rank in the bounded count field, the shape is copied to the buffer
and the element is stored in its field; `none` is the failed assertion of the
count field. -/
def VectorType.new (shape : List Nat) (elementType : PrimitiveTypePtr)
    (context : MLIRContext) : Option VectorType :=
  match Type_.newWithData TypeKind.Vector context shape.length with
  | .ok t => some { toType := t, shapeElements := shape, elementType := elementType }
  | .error _ => none

end mlir

/-! ## `CallGraphUpdater` -/

namespace llvm

/-- A `Function *`. -/
structure Function where
  addr : Nat
  deriving DecidableEq, Repr

/-- A `Module *`. -/
structure Module where
  addr : Nat
  deriving DecidableEq, Repr

/-- A `CallBase *`. -/
structure CallBase where
  addr : Nat
  deriving DecidableEq, Repr

/-- A `CallGraph *`. -/
structure CallGraph where
  addr : Nat
  deriving DecidableEq, Repr

/-- A `LazyCallGraph *`. -/
structure LazyCallGraph where
  addr : Nat
  deriving DecidableEq, Repr

/-- A `CallGraphNode *`. -/
structure CallGraphNode where
  addr : Nat
  deriving DecidableEq, Repr

/-- A `CallGraphNode::CallRecord`: the pair of the call site (a value handle,
possibly null) and the callee's node. -/
structure CallRecord where
  first : Option CallBase
  second : CallGraphNode
  deriving DecidableEq, Repr

/-- The operations of the IR, of the two call graphs and of the analysis
managers that CallGraphUpdater.cpp calls and does not define, over a state `W`
that holds the module, the graphs and the pass-manager data. -/
structure Env (W : Type) where
  /-- Call `filterDeadComdatFunctions(M, DeadComdatFunctions)`: the functions left
  in the vector. -/
  filterDeadComdatFunctions : W → Module → List Function → List Function
  /-- Call `F->getParent()`. -/
  getParent : W → Function → Module
  /-- Call `F.hasComdat()`. -/
  hasComdat : W → Function → Bool
  /-- Call `F.deleteBody()`. -/
  deleteBody : W → Function → W
  /-- Call `F.setLinkage(GlobalValue::ExternalLinkage)`. -/
  setLinkageExternal : W → Function → W
  /-- Call `F->removeDeadConstantUsers()`. -/
  removeDeadConstantUsers : W → Function → W
  /-- Call `F->replaceAllUsesWith(UndefValue::get(F->getType()))`. -/
  replaceAllUsesWithUndef : W → Function → W
  /-- Call `F->eraseFromParent()`. -/
  eraseFromParent : W → Function → W
  /-- Call `CG->getOrInsertFunction(F)`; the argument may be null. -/
  getOrInsertFunction : W → CallGraph → Option Function → W × CallGraphNode
  /-- Call `CG->getExternalCallingNode()`. -/
  getExternalCallingNode : W → CallGraph → CallGraphNode
  /-- Call `(*CG)[F]`. -/
  index : W → CallGraph → Function → CallGraphNode
  /-- The call records `begin() .. end()` of a node. -/
  calledFunctions : W → CallGraphNode → List CallRecord
  /-- Call `N->removeAnyCallEdgeTo(Callee)`. -/
  removeAnyCallEdgeTo : W → CallGraphNode → CallGraphNode → W
  /-- Call `N->removeAllCalledFunctions()`. -/
  removeAllCalledFunctions : W → CallGraphNode → W
  /-- Call `N->getNumReferences()`. -/
  getNumReferences : W → CallGraphNode → Nat
  /-- Call `delete CG->removeFunctionFromModule(N)`. -/
  deleteRemovedFunction : W → CallGraph → CallGraphNode → W
  /-- Call `N->replaceCallEdge(Call, NewCall, NewNode)`. -/
  replaceCallEdge : W → CallGraphNode → CallBase → CallBase → CallGraphNode → W
  /-- The block of `finalize` guarded by `LCG && !ReplacedFunctions.count(DeadFn)`:
  the SCC lookup and its assertion (`none` when it fails), clearing the
  analyses, `LCG->removeDeadFunction` and the two `Invalidated*` insertions. -/
  removeDeadFromLazyGraph : W → LazyCallGraph → Function → Option W
  /-- Call `CS.getCaller()`. -/
  getCaller : W → CallBase → Function
  /-- Call `CS.getCalledFunction()`, possibly null. -/
  getCalledFunction : W → CallBase → Option Function

/-- The data members of `CallGraphUpdater` that the modelled member functions
read or write. -/
structure CallGraphUpdater where
  DeadFunctions : List Function
  DeadFunctionsInComdats : List Function
  ReplacedFunctions : List Function
  CG : Option CallGraph
  LCG : Option LazyCallGraph
  deriving DecidableEq, Repr

namespace CallGraphUpdater

/-- The body of the loop `for (Function *DeadFn : DeadFunctions)` of
`finalize`; `none` is a failed assertion. -/
def finalizeStep {W : Type} (E : Env W) (U : CallGraphUpdater) (w : W) (DeadFn : Function) :
    Option W :=
  let w1 := E.removeDeadConstantUsers w DeadFn
  match U.CG with
  | some cg =>
    let r := E.getOrInsertFunction w1 cg (some DeadFn)
    let OldCGN := r.2
    let w2 := E.removeAnyCallEdgeTo r.1 (E.getExternalCallingNode r.1 cg) OldCGN
    let w3 := E.removeAllCalledFunctions w2 OldCGN
    let w4 := E.replaceAllUsesWithUndef w3 DeadFn
    if E.getNumReferences w4 OldCGN = 0 then
      some (E.deleteRemovedFunction w4 cg OldCGN)
    else none
  | none =>
    let w2 := E.replaceAllUsesWithUndef w1 DeadFn
    let w3 : Option W :=
      match U.LCG with
      | some lcg =>
        if DeadFn ∈ U.ReplacedFunctions then some w2
        else E.removeDeadFromLazyGraph w2 lcg DeadFn
      | none => some w2
    w3.map (fun w => E.eraseFromParent w DeadFn)

/-- The first statement of `finalize`: when `DeadFunctionsInComdats` is not
empty it is filtered in place and what is left is appended to `DeadFunctions`. -/
def collectDead {W : Type} (E : Env W) (U : CallGraphUpdater) (w : W) : CallGraphUpdater :=
  match U.DeadFunctionsInComdats with
  | [] => U
  | front :: rest =>
    let kept := E.filterDeadComdatFunctions w (E.getParent w front) (front :: rest)
    { U with DeadFunctionsInComdats := kept, DeadFunctions := U.DeadFunctions ++ kept }

/-- Member function `bool CallGraphUpdater::finalize()`: the returned flag, the
updater and the state it leaves; `none` is a failed assertion. -/
def finalize {W : Type} (E : Env W) (U : CallGraphUpdater) (w : W) :
    Option (Bool × CallGraphUpdater × W) :=
  let U1 := collectDead E U w
  match U1.DeadFunctions.foldlM (finalizeStep E U1) w with
  | none => none
  | some w1 =>
    let Changed := !U1.DeadFunctions.isEmpty
    some (Changed, { U1 with DeadFunctionsInComdats := [], DeadFunctions := [] }, w1)

/-- Member function `void CallGraphUpdater::removeFunction(Function &DeadFn)`. -/
def removeFunction {W : Type} (E : Env W) (U : CallGraphUpdater) (w : W) (DeadFn : Function) :
    CallGraphUpdater × W :=
  let w1 := E.deleteBody w DeadFn
  let w2 := E.setLinkageExternal w1 DeadFn
  if E.hasComdat w2 DeadFn then
    ({ U with DeadFunctionsInComdats := U.DeadFunctionsInComdats ++ [DeadFn] }, w2)
  else
    ({ U with DeadFunctions := U.DeadFunctions ++ [DeadFn] }, w2)

/-- Member function
`bool CallGraphUpdater::replaceCallSite(CallBase &OldCS, CallBase &NewCS)`. -/
def replaceCallSite {W : Type} (E : Env W) (U : CallGraphUpdater) (w : W)
    (OldCS NewCS : CallBase) : Bool × W :=
  match U.CG with
  | none => (true, w)
  | some cg =>
    let Caller := E.getCaller w OldCS
    let r := E.getOrInsertFunction w cg (E.getCalledFunction w NewCS)
    let NewCalleeNode := r.2
    let CallerNode := E.index r.1 cg Caller
    if (E.calledFunctions r.1 CallerNode).all (fun CR => !decide (CR.first = some OldCS)) then
      (false, r.1)
    else
      (true, E.replaceCallEdge r.1 CallerNode OldCS NewCS NewCalleeNode)

end CallGraphUpdater

/-! ### A concrete state to run the updater on -/

/-- A small concrete state for the operations of `Env`: the functions of the
module, the functions that are in a comdat, and the call records of the nodes
of the call graph. -/
structure SampleState where
  functions : List Function
  comdats : List Function
  records : List (CallGraphNode × CallRecord)
  deriving DecidableEq, Repr

/-- Operations on `SampleState`.  The node of the function at address `n` is at
address `n + 1`, the node at address `0` is the external calling node; a call
site at address `n` is in the function at address `n / 100` and calls the one
at address `n % 100`. -/
def sampleEnv : Env SampleState where
  filterDeadComdatFunctions := fun _ _ fs => fs
  getParent := fun _ _ => ⟨0⟩
  hasComdat := fun w f => decide (f ∈ w.comdats)
  deleteBody := fun w _ => w
  setLinkageExternal := fun w _ => w
  removeDeadConstantUsers := fun w _ => w
  replaceAllUsesWithUndef := fun w _ => w
  eraseFromParent := fun w f => { w with functions := w.functions.filter (fun g => !decide (g = f)) }
  getOrInsertFunction := fun w _ f =>
    match f with
    | some g => (w, ⟨g.addr + 1⟩)
    | none => (w, ⟨0⟩)
  getExternalCallingNode := fun _ _ => ⟨0⟩
  index := fun _ _ f => ⟨f.addr + 1⟩
  calledFunctions := fun w n => (w.records.filter (fun e => decide (e.1 = n))).map Prod.snd
  removeAnyCallEdgeTo := fun w n callee =>
    { w with records := w.records.filter (fun e => !decide (e.1 = n ∧ e.2.second = callee)) }
  removeAllCalledFunctions := fun w n =>
    { w with records := w.records.filter (fun e => !decide (e.1 = n)) }
  getNumReferences := fun w n => (w.records.filter (fun e => decide (e.2.second = n))).length
  deleteRemovedFunction := fun w _ n =>
    { w with functions := w.functions.filter (fun g => !decide (g.addr + 1 = n.addr)) }
  replaceCallEdge := fun w n old new callee =>
    { w with records := w.records.map (fun e =>
        if e.1 = n ∧ e.2.first = some old then (n, ⟨some new, callee⟩) else e) }
  removeDeadFromLazyGraph := fun w _ _ => some w
  getCaller := fun _ cs => ⟨cs.addr / 100⟩
  getCalledFunction := fun _ cs => some ⟨cs.addr % 100⟩

/-- A module of three functions, the third in a comdat, where the first calls
the second at the call site 102. -/
def sampleState : SampleState :=
  { functions := [⟨1⟩, ⟨2⟩, ⟨3⟩], comdats := [⟨3⟩],
    records := [(⟨2⟩, ⟨some ⟨102⟩, ⟨3⟩⟩)] }

/-- An updater without call graph on which nothing has been removed yet. -/
def sampleUpdater : CallGraphUpdater :=
  { DeadFunctions := [], DeadFunctionsInComdats := [], ReplacedFunctions := [],
    CG := none, LCG := none }

/-- An updater for the old-style call graph at address 7. -/
def sampleUpdaterCG : CallGraphUpdater :=
  { DeadFunctions := [], DeadFunctionsInComdats := [], ReplacedFunctions := [],
    CG := some ⟨7⟩, LCG := none }

end llvm

/-! # Properties of the type representation -/

namespace mlir

/-! ### Helper lemmas -/

theorem mod_eq_self_iff_le (val : Nat) :
    val % 2 ^ subclassDataBits = val ↔ val ≤ 2 ^ 24 - 1 := by
  have h : (2 : Nat) ^ subclassDataBits = 16777216 := by decide
  rw [h]
  constructor
  · intro hv
    have := Nat.mod_lt val (show 0 < 16777216 by decide)
    omega
  · intro hv
    exact Nat.mod_eq_of_lt (by omega)

theorem setSubclassData_eq (t : Type_) (val : Nat) :
    t.setSubclassData val =
      if val ≤ 2 ^ 24 - 1 then Except.ok { t with subclassData := val }
      else Except.error Type_.tooLarge := by
  unfold Type_.setSubclassData Type_.getSubclassData
  by_cases hv : val ≤ 2 ^ 24 - 1
  · have hm := (mod_eq_self_iff_le val).2 hv
    simp only [hm, hv, if_true]
  · have hm : ¬ val % 2 ^ subclassDataBits = val := fun h => hv ((mod_eq_self_iff_le val).1 h)
    simp only [hm, hv, if_false]

theorem classof_of_kind (k : TypeKind) :
    [k.le TypeKind.LAST_PRIMITIVE_TYPE, k == TypeKind.Function, k == TypeKind.Vector].count true = 1 ∧
    (k.le TypeKind.LAST_PRIMITIVE_TYPE = true ↔ k ∈ TypeKind.primitiveKinds) ∧
    ((k == TypeKind.Function) = true ↔ k = TypeKind.Function) ∧
    ((k == TypeKind.Vector) = true ↔ k = TypeKind.Vector) := by
  cases k <;> decide

theorem primitive_of_kind (k : TypeKind) :
    (k.le TypeKind.LAST_PRIMITIVE_TYPE = true ↔
      k ∈ [TypeKind.I1, TypeKind.I8, TypeKind.I16, TypeKind.I32, TypeKind.I64,
           TypeKind.Int, TypeKind.BF16, TypeKind.F16, TypeKind.F32, TypeKind.F64]) ∧
    (k.le TypeKind.LAST_PRIMITIVE_TYPE = true ↔
      (k.lt TypeKind.Function = true ∧ k.lt TypeKind.Vector = true)) := by
  cases k <;> decide

theorem arrayRef_front_of_append {α : Type} (xs ys zs : List α) :
    arrayRef (xs ++ ys ++ zs) 0 xs.length = xs := by
  simp [arrayRef, List.append_assoc]

theorem arrayRef_middle_of_append {α : Type} (xs ys zs : List α) :
    arrayRef (xs ++ ys ++ zs) xs.length ys.length = ys := by
  simp [arrayRef, List.append_assoc]

/-- C2 (slice fidelity): a function type whose buffer `inputsAndResults` holds
`inputs` followed by `results` (and whatever storage `rest` may follow them,
none in particular), whose subclass data is the number of inputs and whose
`numResults` is the number of results, gives back exactly `inputs` from
`getInputs()` and exactly `results` from `getResults()`; either list may be
empty. -/
theorem FunctionType_slice_fidelity (f : FunctionType) (inputs results rest : List TypePtr)
    (hbuf : f.inputsAndResults = inputs ++ results ++ rest)
    (hin : f.toType.getSubclassData = inputs.length)
    (hres : f.numResults = results.length) :
    f.getInputs = inputs ∧ f.getResults = results := by
  unfold FunctionType.getInputs FunctionType.getResults
  rw [hbuf, hin, hres]
  exact ⟨arrayRef_front_of_append inputs results rest,
    arrayRef_middle_of_append inputs results rest⟩

/-- Instance of C2 at `inputs = [a, b]`, `results = [c]`. -/
theorem FunctionType_slice_fidelity_witness :
    (FunctionType.mk ⟨⟨0⟩, .Function, 2⟩ 1 [⟨10⟩, ⟨11⟩, ⟨12⟩]).getInputs = [⟨10⟩, ⟨11⟩] ∧
    (FunctionType.mk ⟨⟨0⟩, .Function, 2⟩ 1 [⟨10⟩, ⟨11⟩, ⟨12⟩]).getResults = [⟨12⟩] :=
  FunctionType_slice_fidelity ⟨⟨⟨0⟩, .Function, 2⟩, 1, [⟨10⟩, ⟨11⟩, ⟨12⟩]⟩
    [⟨10⟩, ⟨11⟩] [⟨12⟩] [] rfl rfl rfl

/-- C6 (shape fidelity): a vector type whose buffer `shapeElements` holds
`shape` (and whatever storage `rest` may follow it, none in particular), whose
subclass data is the length of `shape` and whose element field is `e`, gives
back from `getShape()` exactly `shape`, the view of the buffer delimited by the
rank, and from `getElementType()` the handle `e`. -/
theorem VectorType_shape_fidelity (t : Type_) (shape rest : List Nat) (e : PrimitiveTypePtr)
    (hrank : t.getSubclassData = shape.length) :
    (VectorType.mk t (shape ++ rest) e).getShape = shape ∧
    (VectorType.mk t (shape ++ rest) e).getShape.length = t.getSubclassData ∧
    (VectorType.mk t (shape ++ rest) e).getElementType = e := by
  have hshape : (VectorType.mk t (shape ++ rest) e).getShape = shape := by
    unfold VectorType.getShape
    simp only
    rw [hrank]
    have := arrayRef_front_of_append shape [] rest
    simpa using this
  refine ⟨hshape, ?_, rfl⟩
  rw [hshape, hrank]

/-- Instance of C6 at `shape = [4, 4]` with the element handle at address 8, in
a buffer that goes on after the two extents. -/
theorem VectorType_shape_fidelity_witness :
    (VectorType.mk ⟨⟨0⟩, .Vector, 2⟩ [4, 4, 9] ⟨8⟩).getShape = [4, 4] ∧
    (VectorType.mk ⟨⟨0⟩, .Vector, 2⟩ [4, 4] ⟨8⟩).getShape = [4, 4] ∧
    (VectorType.mk ⟨⟨0⟩, .Vector, 2⟩ [4, 4] ⟨8⟩).getElementType = ⟨8⟩ :=
  ⟨(VectorType_shape_fidelity ⟨⟨0⟩, .Vector, 2⟩ [4, 4] [9] ⟨8⟩ rfl).1,
   (VectorType_shape_fidelity ⟨⟨0⟩, .Vector, 2⟩ [4, 4] [] ⟨8⟩ rfl).1,
   (VectorType_shape_fidelity ⟨⟨0⟩, .Vector, 2⟩ [4, 4] [] ⟨8⟩ rfl).2.2⟩

/-! ### C3: the 24-bit count field -/

/-- C3 (bound enforcement): storing a count `val` in the 24-bit subclass-data
field, by `setSubclassData` or by the three-argument constructor, succeeds
exactly when `val ≤ 2^24 - 1`; the object it then leaves reads back `val` from
`getSubclassData()`; for every other `val`, `2^24` included, the outcome is the
failed assertion "Subclass data too large for field", so that no object holding
the truncated count is produced. -/
theorem Type_subclassData_bound (t : Type_) (kind : TypeKind) (context : MLIRContext)
    (val : Nat) :
    ((∃ t1, t.setSubclassData val = Except.ok t1) ↔ val ≤ 2 ^ 24 - 1) ∧
    (t.setSubclassData val =
      if val ≤ 2 ^ 24 - 1 then Except.ok { t with subclassData := val }
      else Except.error "Subclass data too large for field") ∧
    (Type_.newWithData kind context val =
      if val ≤ 2 ^ 24 - 1 then Except.ok ⟨context, kind, val⟩
      else Except.error "Subclass data too large for field") ∧
    (Type_.mk context kind val).getSubclassData = val ∧
    Type_.newWithData kind context (2 ^ 24) = Except.error "Subclass data too large for field" ∧
    Type_.newWithData kind context (2 ^ 24 - 1) = Except.ok ⟨context, kind, 2 ^ 24 - 1⟩ := by
  have hset := setSubclassData_eq t val
  have hnew : Type_.newWithData kind context val =
      if val ≤ 2 ^ 24 - 1 then Except.ok ⟨context, kind, val⟩
      else Except.error "Subclass data too large for field" := by
    unfold Type_.newWithData
    rw [setSubclassData_eq]
    rfl
  have hhi : Type_.newWithData kind context (2 ^ 24) =
      Except.error "Subclass data too large for field" := by
    unfold Type_.newWithData
    rw [setSubclassData_eq]
    rfl
  have hlo : Type_.newWithData kind context (2 ^ 24 - 1) =
      Except.ok ⟨context, kind, 2 ^ 24 - 1⟩ := by
    unfold Type_.newWithData
    rw [setSubclassData_eq]
    rfl
  refine ⟨?_, hset, hnew, rfl, hhi, hlo⟩
  rw [hset]
  by_cases hv : val ≤ 2 ^ 24 - 1
  · rw [if_pos hv]
    exact ⟨fun _ => hv, fun _ => ⟨_, rfl⟩⟩
  · rw [if_neg hv]
    constructor
    · rintro ⟨t1, h1⟩
      cases h1
    · intro h
      exact absurd h hv

/-! ### C4, C5: capability checks -/

/-- C4 (downcast safety): of the three checks `PrimitiveType::classof`,
`FunctionType::classof` and `VectorType::classof` exactly one is true on any
type object, the one that matches its kind tag; on an object whose kind is
`Function` the vector check is false. -/
theorem classof_exactly_one (t : Type_) :
    [PrimitiveType.classof t, FunctionType.classof t, VectorType.classof t].count true = 1 ∧
    (PrimitiveType.classof t = true ↔ t.getKind ∈ TypeKind.primitiveKinds) ∧
    (FunctionType.classof t = true ↔ t.getKind = TypeKind.Function) ∧
    (VectorType.classof t = true ↔ t.getKind = TypeKind.Vector) ∧
    VectorType.classof { t with kind := TypeKind.Function } = false := by
  refine ⟨(classof_of_kind t.kind).1, (classof_of_kind t.kind).2.1,
    (classof_of_kind t.kind).2.2.1, (classof_of_kind t.kind).2.2.2, rfl⟩

/-- C5 (single ordering test): `PrimitiveType::classof`, the test
`kind <= LAST_PRIMITIVE_TYPE`, is true on an object exactly when its kind is
one of `I1, I8, I16, I32, I64, Int, BF16, F16, F32, F64`; and a tag is one of
these ten exactly when it is strictly smaller than both `Function` and
`Vector`. -/
theorem PrimitiveType_classof_iff (context : MLIRContext) (k : TypeKind) (data : Nat) :
    (PrimitiveType.classof ⟨context, k, data⟩ = true ↔
      k ∈ [TypeKind.I1, TypeKind.I8, TypeKind.I16, TypeKind.I32, TypeKind.I64,
           TypeKind.Int, TypeKind.BF16, TypeKind.F16, TypeKind.F32, TypeKind.F64]) ∧
    (PrimitiveType.classof ⟨context, k, data⟩ = true ↔
      (k.lt TypeKind.Function = true ∧ k.lt TypeKind.Vector = true)) ∧
    (PrimitiveType.classof ⟨context, k, data⟩ = k.le TypeKind.F64) :=
  ⟨(primitive_of_kind k).1, (primitive_of_kind k).2, rfl⟩

/-! ### C8: the header -/

/-- C8 (header round trip): an object constructed with `Type(k, c)` reports
`getKind() = k`, `getContext() = c` and `getSubclassData() = 0`; the value of
`k` fits the 8-bit kind field, signed or unsigned, and distinct tags have
distinct values; `is(k')` is true exactly for `k' = k`, hence for exactly one
tag. -/
theorem Type_header_round_trip (k : TypeKind) (c : MLIRContext) :
    (Type_.new k c).getKind = k ∧
    (Type_.new k c).getContext = c ∧
    (Type_.new k c).getSubclassData = 0 ∧
    k.toNat % 2 ^ kindBits = k.toNat ∧ k.toNat < 2 ^ (kindBits - 1) ∧
    (∀ k1 : TypeKind, k1.toNat = k.toNat ↔ k1 = k) ∧
    (∀ k1 : TypeKind, (Type_.new k c).is k1 = true ↔ k1 = k) ∧
    (∃! k1 : TypeKind, (Type_.new k c).is k1 = true) := by
  have his : ∀ k1 : TypeKind, (Type_.new k c).is k1 = true ↔ k1 = k := by
    intro k1
    simp only [Type_.is, Type_.new, beq_iff_eq]
    exact eq_comm
  refine ⟨rfl, rfl, rfl, ?_, ?_, ?_, his, ⟨k, (his k).2 rfl, fun y hy => (his y).1 hy⟩⟩
  · cases k <;> decide
  · cases k <;> decide
  · intro k1
    cases k <;> cases k1 <;> decide

/-! ### C1: uniqueness of the handles -/

theorem probe_cons_self {κ : Type} [DecidableEq κ] (T : Table κ) (key : κ) (h : TypePtr) :
    Table.probe ((key, h) :: T) key = some h := by
  simp [Table.probe]

theorem probe_cons_of_miss {κ : Type} [DecidableEq κ] (T : Table κ) (key k1 : κ)
    (h h1 : TypePtr) (hmiss : Table.probe T k1 = none) (hreg : Table.probe T key = some h) :
    Table.probe ((k1, h1) :: T) key = some h := by
  have hne : k1 ≠ key := by
    intro heq
    rw [heq, hreg] at hmiss
    cases hmiss
  simp [Table.probe, hne, hreg]

theorem get_registers (d : Descriptor) (S S1 : Store) (h : TypePtr)
    (hget : d.get S = some (h, S1)) :
    S1.registered d = some h ∧ d.inBound = true := by
  cases d with
  | primitive kind =>
    simp only [Descriptor.get, PrimitiveType.get] at hget
    cases hp : S.primitives.probe kind with
    | some h0 =>
      rw [hp] at hget
      cases hget
      exact ⟨hp, rfl⟩
    | none =>
      rw [hp] at hget
      cases hget
      exact ⟨probe_cons_self _ _ _, rfl⟩
  | function inputs results =>
    simp only [Descriptor.get, FunctionType.get] at hget
    by_cases hb : maxCount < inputs.length
    · rw [if_pos hb] at hget
      cases hget
    · rw [if_neg hb] at hget
      have hin : (Descriptor.function inputs results).inBound = true := by
        simp only [Descriptor.inBound, decide_eq_true_eq]
        omega
      cases hp : S.functions.probe (inputs, results) with
      | some h0 =>
        rw [hp] at hget
        cases hget
        exact ⟨hp, hin⟩
      | none =>
        rw [hp] at hget
        cases hget
        exact ⟨probe_cons_self _ _ _, hin⟩
  | vector shape elementType =>
    simp only [Descriptor.get, VectorType.get] at hget
    by_cases hb : maxCount < shape.length
    · rw [if_pos hb] at hget
      cases hget
    · rw [if_neg hb] at hget
      have hin : (Descriptor.vector shape elementType).inBound = true := by
        simp only [Descriptor.inBound, decide_eq_true_eq]
        omega
      cases hp : S.vectors.probe (shape, elementType) with
      | some h0 =>
        rw [hp] at hget
        cases hget
        exact ⟨hp, hin⟩
      | none =>
        rw [hp] at hget
        cases hget
        exact ⟨probe_cons_self _ _ _, hin⟩

theorem get_hit (d : Descriptor) (S : Store) (h : TypePtr)
    (hreg : S.registered d = some h) (hb : d.inBound = true) :
    d.get S = some (h, S) := by
  cases d with
  | primitive kind =>
    simp only [Store.registered] at hreg
    simp only [Descriptor.get, PrimitiveType.get, hreg]
  | function inputs results =>
    simp only [Store.registered] at hreg
    simp only [Descriptor.inBound, decide_eq_true_eq] at hb
    have hnb : ¬ maxCount < inputs.length := by omega
    simp only [Descriptor.get, FunctionType.get, if_neg hnb, hreg]
  | vector shape elementType =>
    simp only [Store.registered] at hreg
    simp only [Descriptor.inBound, decide_eq_true_eq] at hb
    have hnb : ¬ maxCount < shape.length := by omega
    simp only [Descriptor.get, VectorType.get, if_neg hnb, hreg]

theorem primitive_get_keeps (d : Descriptor) (kind : TypeKind) (S S1 : Store) (h h1 : TypePtr)
    (hreg : S.registered d = some h) (hget : PrimitiveType.get kind S = some (h1, S1)) :
    S1.registered d = some h := by
  simp only [PrimitiveType.get] at hget
  cases hp : S.primitives.probe kind with
  | some h0 =>
    rw [hp] at hget
    cases hget
    exact hreg
  | none =>
    rw [hp] at hget
    cases hget
    cases d with
    | primitive k => exact probe_cons_of_miss _ _ _ _ _ hp hreg
    | function i r => exact hreg
    | vector sh e => exact hreg

theorem function_get_keeps (d : Descriptor) (inputs results : List TypePtr) (S S1 : Store)
    (h h1 : TypePtr) (hreg : S.registered d = some h)
    (hget : FunctionType.get inputs results S = some (h1, S1)) :
    S1.registered d = some h := by
  simp only [FunctionType.get] at hget
  by_cases hb : maxCount < inputs.length
  · rw [if_pos hb] at hget
    cases hget
  · rw [if_neg hb] at hget
    cases hp : S.functions.probe (inputs, results) with
    | some h0 =>
      rw [hp] at hget
      cases hget
      exact hreg
    | none =>
      rw [hp] at hget
      cases hget
      cases d with
      | primitive k => exact hreg
      | function i r => exact probe_cons_of_miss _ _ _ _ _ hp hreg
      | vector sh e => exact hreg

theorem vector_get_keeps (d : Descriptor) (shape : List Nat) (elementType : TypePtr)
    (S S1 : Store) (h h1 : TypePtr) (hreg : S.registered d = some h)
    (hget : VectorType.get shape elementType S = some (h1, S1)) :
    S1.registered d = some h := by
  simp only [VectorType.get] at hget
  by_cases hb : maxCount < shape.length
  · rw [if_pos hb] at hget
    cases hget
  · rw [if_neg hb] at hget
    cases hp : S.vectors.probe (shape, elementType) with
    | some h0 =>
      rw [hp] at hget
      cases hget
      exact hreg
    | none =>
      rw [hp] at hget
      cases hget
      cases d with
      | primitive k => exact hreg
      | function i r => exact hreg
      | vector sh e => exact probe_cons_of_miss _ _ _ _ _ hp hreg

theorem get_keeps (d d1 : Descriptor) (S S1 : Store) (h h1 : TypePtr)
    (hreg : S.registered d = some h) (hget : d1.get S = some (h1, S1)) :
    S1.registered d = some h := by
  cases d1 with
  | primitive kind => exact primitive_get_keeps d kind S S1 h h1 hreg hget
  | function inputs results => exact function_get_keeps d inputs results S S1 h h1 hreg hget
  | vector shape elementType => exact vector_get_keeps d shape elementType S S1 h h1 hreg hget

theorem getAll_keeps (d : Descriptor) (h : TypePtr) (between : List Descriptor) :
    ∀ S S2 : Store, S.registered d = some h → S.getAll between = some S2 →
      S2.registered d = some h := by
  induction between with
  | nil =>
    intro S S2 hreg hall
    simp only [Store.getAll] at hall
    cases hall
    exact hreg
  | cons d1 rest ih =>
    intro S S2 hreg hall
    simp only [Store.getAll] at hall
    cases hg : d1.get S with
    | none =>
      rw [hg] at hall
      cases hall
    | some r =>
      obtain ⟨h1, S1⟩ := r
      rw [hg] at hall
      exact ih S1 S2 (get_keeps d d1 S S1 h h1 hreg hg) hall

/-- C1 (uniqueness): on any store `S`, when a factory call
(`PrimitiveType::get`, `FunctionType::get` or `VectorType::get`) for a
descriptor `d1` returns the handle `h`, then after any sequence `between` of
further factory calls, a call for a structurally equal descriptor `d2` returns
the same handle `h` and leaves the store as it is. -/
theorem get_unique (S S1 S2 : Store) (d1 d2 : Descriptor) (between : List Descriptor)
    (h : TypePtr) (heq : d1 = d2) (hfirst : d1.get S = some (h, S1))
    (hbetween : S1.getAll between = some S2) :
    d2.get S2 = some (h, S2) := by
  subst heq
  have h1 := get_registers d1 S S1 h hfirst
  exact get_hit d1 S2 h (getAll_keeps d1 h between S1 S2 h1.1 hbetween) h1.2

/-- Instance of C1: on a store holding `I32`, `I64` and `F32` at the addresses
0, 1 and 2, the function type `([I32, I32], [I64])` is requested, then `F64`, a
vector of `F32`, `I32` again and the function type `([I32, I64], [I32])`, then
the first descriptor again. -/
theorem get_unique_witness :
    (Descriptor.function [⟨0⟩, ⟨0⟩] [⟨1⟩]).get
      ⟨[(.F64, ⟨4⟩), (.F32, ⟨2⟩), (.I64, ⟨1⟩), (.I32, ⟨0⟩)],
       [(([⟨0⟩, ⟨1⟩], [⟨0⟩]), ⟨6⟩), (([⟨0⟩, ⟨0⟩], [⟨1⟩]), ⟨3⟩)],
       [(([4, 4], ⟨2⟩), ⟨5⟩)], 7⟩ =
    some (⟨3⟩,
      ⟨[(.F64, ⟨4⟩), (.F32, ⟨2⟩), (.I64, ⟨1⟩), (.I32, ⟨0⟩)],
       [(([⟨0⟩, ⟨1⟩], [⟨0⟩]), ⟨6⟩), (([⟨0⟩, ⟨0⟩], [⟨1⟩]), ⟨3⟩)],
       [(([4, 4], ⟨2⟩), ⟨5⟩)], 7⟩) :=
  get_unique
    ⟨[(.F32, ⟨2⟩), (.I64, ⟨1⟩), (.I32, ⟨0⟩)], [], [], 3⟩
    ⟨[(.F32, ⟨2⟩), (.I64, ⟨1⟩), (.I32, ⟨0⟩)], [(([⟨0⟩, ⟨0⟩], [⟨1⟩]), ⟨3⟩)], [], 4⟩
    ⟨[(.F64, ⟨4⟩), (.F32, ⟨2⟩), (.I64, ⟨1⟩), (.I32, ⟨0⟩)],
     [(([⟨0⟩, ⟨1⟩], [⟨0⟩]), ⟨6⟩), (([⟨0⟩, ⟨0⟩], [⟨1⟩]), ⟨3⟩)],
     [(([4, 4], ⟨2⟩), ⟨5⟩)], 7⟩
    (.function [⟨0⟩, ⟨0⟩] [⟨1⟩]) (.function [⟨0⟩, ⟨0⟩] [⟨1⟩])
    [.primitive .F64, .vector [4, 4] ⟨2⟩, .primitive .I32, .function [⟨0⟩, ⟨1⟩] [⟨0⟩]]
    ⟨3⟩ rfl (by decide) (by decide)

/-! ### C7: the element parameter of the vector factory -/

end mlir

/-! # Properties of the call-graph updater -/

namespace llvm

namespace CallGraphUpdater

theorem finalize_done {W : Type} (E : Env W) (U : CallGraphUpdater) (w : W)
    (hdead : U.DeadFunctions = []) (hcomdat : U.DeadFunctionsInComdats = []) :
    finalize E U w = some (false, U, w) := by
  obtain ⟨DF, DFC, RF, CG, LCG⟩ := U
  simp only at hdead hcomdat
  subst hdead hcomdat
  rfl

theorem collectDead_dead {W : Type} (E : Env W) (U : CallGraphUpdater) (w : W) :
    (collectDead E U w).DeadFunctions =
      U.DeadFunctions ++
        (match U.DeadFunctionsInComdats with
         | [] => []
         | front :: rest =>
           E.filterDeadComdatFunctions w (E.getParent w front) (front :: rest)) := by
  unfold collectDead
  cases U.DeadFunctionsInComdats with
  | nil => simp
  | cons front rest => rfl

/-- C9: when `finalize()` returns, the flag it returns is true exactly when the
list of functions its loop erases is not empty, that list being
`DeadFunctions` followed by what `filterDeadComdatFunctions` left of
`DeadFunctionsInComdats`; the state it leaves is the one the loop produces by
running once for each function of that list; both lists are empty afterwards,
and a second `finalize()` on the updater and state it left returns false and
changes neither. -/
theorem finalize_changed_iff {W : Type} (E : Env W) (U U1 : CallGraphUpdater) (w w1 : W)
    (Changed : Bool) (hret : finalize E U w = some (Changed, U1, w1)) :
    (Changed = true ↔
      U.DeadFunctions ++
        (match U.DeadFunctionsInComdats with
         | [] => []
         | front :: rest =>
           E.filterDeadComdatFunctions w (E.getParent w front) (front :: rest)) ≠ []) ∧
    (U.DeadFunctions ++
        (match U.DeadFunctionsInComdats with
         | [] => []
         | front :: rest =>
           E.filterDeadComdatFunctions w (E.getParent w front) (front :: rest))).foldlM
      (finalizeStep E (collectDead E U w)) w = some w1 ∧
    U1.DeadFunctions = [] ∧ U1.DeadFunctionsInComdats = [] ∧
    finalize E U1 w1 = some (false, U1, w1) := by
  rw [← collectDead_dead]
  unfold finalize at hret
  simp only at hret
  cases hfold : (collectDead E U w).DeadFunctions.foldlM (finalizeStep E (collectDead E U w)) w with
  | none =>
    rw [hfold] at hret
    cases hret
  | some w2 =>
    rw [hfold] at hret
    simp only [Option.some.injEq, Prod.mk.injEq] at hret
    obtain ⟨hc, hu, hw⟩ := hret
    subst hc hu hw
    refine ⟨?_, rfl, rfl, rfl, finalize_done E _ _ rfl rfl⟩
    cases (collectDead E U w).DeadFunctions with
    | nil => simp
    | cons a l => simp

/-- Instance of C9: two functions are removed from the sample module, one of
them in a comdat; `finalize()` returns true and erases both, and a second
`finalize()` returns false. -/
theorem finalize_changed_iff_witness :
    finalize sampleEnv
      (removeFunction sampleEnv
        (removeFunction sampleEnv sampleUpdater sampleState ⟨3⟩).1 sampleState ⟨1⟩).1
      sampleState =
      some (true, sampleUpdater, { sampleState with functions := [⟨2⟩] }) ∧
    finalize sampleEnv sampleUpdater { sampleState with functions := [⟨2⟩] } =
      some (false, sampleUpdater, { sampleState with functions := [⟨2⟩] }) :=
  ⟨by decide,
   (finalize_changed_iff sampleEnv
      (removeFunction sampleEnv
        (removeFunction sampleEnv sampleUpdater sampleState ⟨3⟩).1 sampleState ⟨1⟩).1
      sampleUpdater sampleState { sampleState with functions := [⟨2⟩] } true
      (by decide)).2.2.2.2⟩

/-- C10: without an old-style call graph `replaceCallSite(OldCS, NewCS)`
returns true and leaves the state as it is.  With one, and with the caller's
node looked up after `getOrInsertFunction` for the new callee, it returns false
exactly when no call record of the caller's node has `OldCS` as its call site,
and then `replaceCallEdge` is not applied: the state, and with it the call
records of the caller's node, are as `getOrInsertFunction` left them; otherwise
it returns true and the state is the one `replaceCallEdge(OldCS, NewCS,
NewCalleeNode)` leaves on the caller's node. -/
theorem replaceCallSite_result {W : Type} (E : Env W) (U : CallGraphUpdater) (w : W)
    (OldCS NewCS : CallBase) :
    (U.CG = none → replaceCallSite E U w OldCS NewCS = (true, w)) ∧
    (∀ cg : CallGraph, U.CG = some cg →
      ((replaceCallSite E U w OldCS NewCS).1 = false ↔
        ∀ CR ∈ E.calledFunctions (E.getOrInsertFunction w cg (E.getCalledFunction w NewCS)).1
            (E.index (E.getOrInsertFunction w cg (E.getCalledFunction w NewCS)).1 cg
              (E.getCaller w OldCS)),
          CR.first ≠ some OldCS) ∧
      ((replaceCallSite E U w OldCS NewCS).1 = false →
        (replaceCallSite E U w OldCS NewCS).2 =
            (E.getOrInsertFunction w cg (E.getCalledFunction w NewCS)).1 ∧
        E.calledFunctions (replaceCallSite E U w OldCS NewCS).2
            (E.index (E.getOrInsertFunction w cg (E.getCalledFunction w NewCS)).1 cg
              (E.getCaller w OldCS)) =
          E.calledFunctions (E.getOrInsertFunction w cg (E.getCalledFunction w NewCS)).1
            (E.index (E.getOrInsertFunction w cg (E.getCalledFunction w NewCS)).1 cg
              (E.getCaller w OldCS))) ∧
      ((replaceCallSite E U w OldCS NewCS).1 = true →
        (replaceCallSite E U w OldCS NewCS).2 =
          E.replaceCallEdge (E.getOrInsertFunction w cg (E.getCalledFunction w NewCS)).1
            (E.index (E.getOrInsertFunction w cg (E.getCalledFunction w NewCS)).1 cg
              (E.getCaller w OldCS))
            OldCS NewCS (E.getOrInsertFunction w cg (E.getCalledFunction w NewCS)).2)) := by
  constructor
  · intro hnone
    unfold replaceCallSite
    rw [hnone]
  · intro cg hcg
    unfold replaceCallSite
    rw [hcg]
    simp only
    by_cases hall : (E.calledFunctions (E.getOrInsertFunction w cg (E.getCalledFunction w NewCS)).1
        (E.index (E.getOrInsertFunction w cg (E.getCalledFunction w NewCS)).1 cg
          (E.getCaller w OldCS))).all (fun CR => !decide (CR.first = some OldCS)) = true
    · rw [if_pos hall]
      refine ⟨⟨fun _ => ?_, fun _ => rfl⟩, fun _ => ⟨rfl, rfl⟩, fun h => ?_⟩
      · intro CR hCR
        have := List.all_eq_true.1 hall CR hCR
        simpa using this
      · cases h
    · rw [if_neg hall]
      refine ⟨⟨fun h => ?_, fun h => ?_⟩, fun h => ?_, fun _ => rfl⟩
      · cases h
      · exfalso
        apply hall
        rw [List.all_eq_true]
        intro CR hCR
        simpa using h CR hCR
      · cases h

/-- Instance of C10 on the sample module: without a call graph the call is a
no-op returning true; with one, replacing the recorded call site 102 by 103
rewrites the record of the caller's node, and replacing the unrecorded call
site 105 returns false and leaves the records alone. -/
theorem replaceCallSite_result_witness :
    replaceCallSite sampleEnv sampleUpdater sampleState ⟨102⟩ ⟨103⟩ = (true, sampleState) ∧
    (replaceCallSite sampleEnv sampleUpdaterCG sampleState ⟨102⟩ ⟨103⟩).2 =
      { sampleState with records := [(⟨2⟩, ⟨some ⟨103⟩, ⟨4⟩⟩)] } ∧
    (replaceCallSite sampleEnv sampleUpdaterCG sampleState ⟨105⟩ ⟨103⟩).2 = sampleState :=
  ⟨(replaceCallSite_result sampleEnv sampleUpdater sampleState ⟨102⟩ ⟨103⟩).1 rfl,
   ((replaceCallSite_result sampleEnv sampleUpdaterCG sampleState ⟨102⟩ ⟨103⟩).2 ⟨7⟩ rfl).2.2
     (by decide),
   (((replaceCallSite_result sampleEnv sampleUpdaterCG sampleState ⟨105⟩ ⟨103⟩).2 ⟨7⟩ rfl).2.1
     (by decide)).1⟩

end CallGraphUpdater

end llvm
